import Mathlib

/-!
Shallow embedding of the counter-app core (src/lib/contract.ts, re-exported
through src/app/page.tsx, and src/components/CounterApp.tsx).

Conventions of the embedding:
* JavaScript `bigint` values are modelled as `Int` (counter values come from a
  uint256 contract slot but `BigInt(string)` can produce negative values, so the
  history entry type uses `Int` like the source's `bigint`).
* `Date` objects are modelled by their millisecond timestamp (`Nat`, i.e. the
  model covers instants from the Unix epoch up to year 9999, the range in which
  `Date.prototype.toISOString` prints a 4-digit year).
* Promise-based control flow is sequentialised; a rejected promise is an
  `Except.error`.  Timer-based self-clearing of transient notifications
  (`setTimeout` in `showSuccess`, achievement and animation clearing) is not
  modelled: the state captured is the state right after the handler ran.
-/

namespace CounterApp

/-! ### Decimal digits and strings -/

/-- The character for a decimal digit value (`0 ≤ d ≤ 9`). -/
def digitChar (d : Nat) : Char := Char.ofNat (48 + d)

/-- Inverse of `digitChar`: the digit value of a character, when it is one. -/
def charDigit? (c : Char) : Option Nat :=
  if 48 ≤ c.toNat ∧ c.toNat ≤ 57 then some (c.toNat - 48) else none

/-- Big-endian decimal digits of `n`, with explicit fuel so the recursion is
structural (the fuel `n` is always sufficient since `n / 10 < n` for `n ≥ 10`). -/
def natDigitsAux : Nat → Nat → List Nat
  | 0, n => [n]
  | fuel + 1, n => if n < 10 then [n] else natDigitsAux fuel (n / 10) ++ [n % 10]

/-- Big-endian decimal digits of `n` (`natDigits 0 = [0]`). -/
def natDigits (n : Nat) : List Nat := natDigitsAux n n

/-- Model of JavaScript `Number/BigInt.prototype.toString` for naturals. -/
def natToDecString (n : Nat) : String := String.mk ((natDigits n).map digitChar)

/-- Model of `bigint.toString()`: decimal representation with a leading `-`
for negative values. -/
def intToDecString (v : Int) : String :=
  if v < 0 then String.mk ('-' :: (natDigits v.natAbs).map digitChar)
  else natToDecString v.natAbs

/-- Fold a character list of decimal digits into a natural number; fails on the
first non-digit character. -/
def parseDigitsAux : List Char → Nat → Option Nat
  | [], acc => some acc
  | c :: rest, acc =>
    match charDigit? c with
    | some d => parseDigitsAux rest (acc * 10 + d)
    | none => none

/-- Parse a non-empty all-digit character list as a natural number. -/
def parseDigits? (l : List Char) : Option Nat :=
  match l with
  | [] => none
  | _ :: _ => parseDigitsAux l 0

/-- The characters stripped by `StringToBigInt`: the ECMAScript WhiteSpace set
(TAB, VT, FF, SP, NBSP U+00A0, ZWNBSP U+FEFF, and the Space_Separator
category: U+1680, U+2000–U+200A, U+202F, U+205F, U+3000) plus the
LineTerminator set (LF, CR, LS U+2028, PS U+2029). -/
def isJsSpace (c : Char) : Bool :=
  c == ' ' || c == '\t' || c == '\n' || c == '\r' || c == '\x0b' || c == '\x0c' ||
  c.toNat == 160 || c.toNat == 65279 || c.toNat == 5760 ||
  (8192 ≤ c.toNat && c.toNat ≤ 8202) || c.toNat == 8232 || c.toNat == 8233 ||
  c.toNat == 8239 || c.toNat == 8287 || c.toNat == 12288

/-- Drop leading JS whitespace. -/
def dropSpaces : List Char → List Char
  | [] => []
  | c :: rest => if isJsSpace c then dropSpaces rest else c :: rest

/-- Strip JS whitespace from both ends. -/
def trimChars (l : List Char) : List Char :=
  (dropSpaces (dropSpaces l).reverse).reverse

/-- The value of a hexadecimal digit character (`0-9`, `a-f`, `A-F`). -/
def hexDigit? (c : Char) : Option Nat :=
  if 48 ≤ c.toNat ∧ c.toNat ≤ 57 then some (c.toNat - 48)
  else if 97 ≤ c.toNat ∧ c.toNat ≤ 102 then some (c.toNat - 87)
  else if 65 ≤ c.toNat ∧ c.toNat ≤ 70 then some (c.toNat - 55)
  else none

/-- Fold a character list of base-`radix` digits (radix ≤ 16) into a natural
number; fails on the first character that is not a digit below the radix. -/
def parseRadixDigitsAux (radix : Nat) : List Char → Nat → Option Nat
  | [], acc => some acc
  | c :: rest, acc =>
    match hexDigit? c with
    | some d => if d < radix then parseRadixDigitsAux radix rest (acc * radix + d) else none
    | none => none

/-- Parse a non-empty base-`radix` digit list. -/
def parseRadixDigits? (radix : Nat) (l : List Char) : Option Nat :=
  match l with
  | [] => none
  | _ :: _ => parseRadixDigitsAux radix l 0

/-- `some ∘ Int.ofNat` lifted over `Option`. -/
def toBig : Option Nat → Option Int
  | some n => some (Int.ofNat n)
  | none => none

/-- Model of `StringToBigInt` on a trimmed character list: empty means `0n`;
the `0x`/`0X`, `0o`/`0O`, `0b`/`0B` prefixed integer literal forms (which
admit no sign); otherwise an optional sign followed by decimal digits.
Anything else throws (`none`). -/
def parseBigIntChars (l : List Char) : Option Int :=
  match l with
  | [] => some 0
  | c :: rest =>
    if c == '0' then
      match rest with
      | [] => some 0
      | x :: rest2 =>
        if x == 'x' || x == 'X' then toBig (parseRadixDigits? 16 rest2)
        else if x == 'o' || x == 'O' then toBig (parseRadixDigits? 8 rest2)
        else if x == 'b' || x == 'B' then toBig (parseRadixDigits? 2 rest2)
        else toBig (parseDigits? (c :: x :: rest2))
    else if c == '+' then toBig (parseDigits? rest)
    else if c == '-' then
      match parseDigits? rest with
      | some n => some (-Int.ofNat n)
      | none => none
    else toBig (parseDigits? (c :: rest))

/-- Model of `BigInt(string)` (`none` models the thrown `SyntaxError`). -/
def parseBigInt (s : String) : Option Int := parseBigIntChars (trimChars s.data)

/-! ### Gregorian calendar (model of `Date`)

`Date.prototype.toISOString` and the ISO-8601 branch of the `Date` string
parser are host primitives; they are modelled here by an explicit Gregorian
calendar computation producing exactly the `YYYY-MM-DDTHH:mm:ss.sssZ` layout
mandated by ECMA-262 for years 1970–9999. -/

/-- Gregorian leap-year predicate. -/
def isLeap (y : Nat) : Bool := (y % 4 == 0 && y % 100 != 0) || y % 400 == 0

/-- Number of days in year `y`. -/
def daysInYear (y : Nat) : Nat := if isLeap y then 366 else 365

/-- Days in the `k` consecutive years starting at year `y`. -/
def daysBetween (y : Nat) : Nat → Nat
  | 0 => 0
  | k + 1 => daysInYear y + daysBetween (y + 1) k

/-- Length of month `m` (1-based) in a (non-)leap year. -/
def monthLen (leap : Bool) (m : Nat) : Nat :=
  match m with
  | 1 => 31
  | 2 => if leap then 29 else 28
  | 3 => 31
  | 4 => 30
  | 5 => 31
  | 6 => 30
  | 7 => 31
  | 8 => 31
  | 9 => 30
  | 10 => 31
  | 11 => 30
  | 12 => 31
  | _ => 0

/-- Days before month `m` (1-based) in a (non-)leap year. -/
def monthCumul (leap : Bool) (m : Nat) : Nat :=
  let ell : Nat := if leap then 1 else 0
  match m with
  | 1 => 0
  | 2 => 31
  | 3 => 59 + ell
  | 4 => 90 + ell
  | 5 => 120 + ell
  | 6 => 151 + ell
  | 7 => 181 + ell
  | 8 => 212 + ell
  | 9 => 243 + ell
  | 10 => 273 + ell
  | 11 => 304 + ell
  | 12 => 334 + ell
  | _ => 0

/-- Month (1-based) and day-of-month offset (0-based) of a day-of-year. -/
def monthSplit (leap : Bool) (doy : Nat) : Nat × Nat :=
  if doy < monthCumul leap 2 then (1, doy)
  else if doy < monthCumul leap 3 then (2, doy - monthCumul leap 2)
  else if doy < monthCumul leap 4 then (3, doy - monthCumul leap 3)
  else if doy < monthCumul leap 5 then (4, doy - monthCumul leap 4)
  else if doy < monthCumul leap 6 then (5, doy - monthCumul leap 5)
  else if doy < monthCumul leap 7 then (6, doy - monthCumul leap 6)
  else if doy < monthCumul leap 8 then (7, doy - monthCumul leap 7)
  else if doy < monthCumul leap 9 then (8, doy - monthCumul leap 8)
  else if doy < monthCumul leap 10 then (9, doy - monthCumul leap 9)
  else if doy < monthCumul leap 11 then (10, doy - monthCumul leap 10)
  else if doy < monthCumul leap 12 then (11, doy - monthCumul leap 11)
  else (12, doy - monthCumul leap 12)

/-- Split a day count from 1970-01-01 into (year, day-of-year), counting
years upward from `y`; fuelled so the recursion is structural (one unit of
fuel per year, and a year consumes at least 365 days). -/
def yearSplitAux : Nat → Nat → Nat → Nat × Nat
  | 0, y, days => (y, days)
  | fuel + 1, y, days =>
    if days < daysInYear y then (y, days)
    else yearSplitAux fuel (y + 1) (days - daysInYear y)

/-- (Year, day-of-year) of a day count, counting years from `y`. -/
def yearSplit (y days : Nat) : Nat × Nat := yearSplitAux (days + 1) y days

/-- Two decimal characters, zero-padded. -/
def pad2 (n : Nat) : List Char := [digitChar (n / 10 % 10), digitChar (n % 10)]

/-- Three decimal characters, zero-padded. -/
def pad3 (n : Nat) : List Char :=
  [digitChar (n / 100 % 10), digitChar (n / 10 % 10), digitChar (n % 10)]

/-- Four decimal characters, zero-padded. -/
def pad4 (n : Nat) : List Char :=
  [digitChar (n / 1000 % 10), digitChar (n / 100 % 10), digitChar (n / 10 % 10),
   digitChar (n % 10)]

/-- The 24 characters of `Date.prototype.toISOString` for a millisecond
timestamp (years 1970–9999): `YYYY-MM-DDTHH:mm:ss.sssZ`. -/
def toIsoChars (ms : Nat) : List Char :=
  let days := ms / 86400000
  let rem := ms % 86400000
  let yd := yearSplit 1970 days
  let md := monthSplit (isLeap yd.1) yd.2
  pad4 yd.1 ++ '-' :: pad2 md.1 ++ '-' :: pad2 (md.2 + 1) ++
    'T' :: pad2 (rem / 3600000) ++ ':' :: pad2 (rem % 3600000 / 60000) ++
    ':' :: pad2 (rem % 60000 / 1000) ++ '.' :: pad3 (rem % 1000) ++ ['Z']

/-- Model of `Date.prototype.toISOString`. -/
def toIso (ms : Nat) : String := String.mk (toIsoChars ms)

/-- Combine two digit characters into a number below 100. -/
def twoDigits (a b : Char) : Option Nat :=
  match charDigit? a, charDigit? b with
  | some x, some y => some (10 * x + y)
  | _, _ => none

/-- Combine three digit characters into a number below 1000. -/
def threeDigits (a b c : Char) : Option Nat :=
  match charDigit? a, charDigit? b, charDigit? c with
  | some x, some y, some z => some (100 * x + 10 * y + z)
  | _, _, _ => none

/-- Combine four digit characters into a number below 10000. -/
def fourDigits (a b c d : Char) : Option Nat :=
  match charDigit? a, charDigit? b, charDigit? c, charDigit? d with
  | some x, some y, some z, some w => some (1000 * x + 100 * y + 10 * z + w)
  | _, _, _, _ => none

/-- Model of the ISO-8601 branch of the `Date` string parser (`new
Date(string)`) on the exact `YYYY-MM-DDTHH:mm:ss.sssZ` layout; out-of-range
fields make the date invalid (`none`), and years before 1970 are outside the
model's domain. -/
def parseIsoChars : List Char → Option Nat
  | [a1, a2, a3, a4, s1, b1, b2, s2, c1, c2, s3, e1, e2, s4, f1, f2, s5, g1, g2,
     s6, q1, q2, q3, s7] =>
    if s1 = '-' ∧ s2 = '-' ∧ s3 = 'T' ∧ s4 = ':' ∧ s5 = ':' ∧ s6 = '.' ∧ s7 = 'Z' then
      match fourDigits a1 a2 a3 a4, twoDigits b1 b2, twoDigits c1 c2,
          twoDigits e1 e2, twoDigits f1 f2, twoDigits g1 g2, threeDigits q1 q2 q3 with
      | some y, some mo, some dy, some hh, some mi, some ss, some ql =>
        if 1970 ≤ y ∧ 1 ≤ mo ∧ mo ≤ 12 ∧ 1 ≤ dy ∧ dy ≤ monthLen (isLeap y) mo ∧
            hh < 24 ∧ mi < 60 ∧ ss < 60 then
          some ((daysBetween 1970 (y - 1970) + monthCumul (isLeap y) mo + (dy - 1)) *
              86400000 + hh * 3600000 + mi * 60000 + ss * 1000 + ql)
        else none
      | _, _, _, _, _, _, _ => none
    else none
  | _ => none

/-- Model of `new Date(isoString)` (milliseconds, `none` = Invalid Date). -/
def parseIso (s : String) : Option Nat := parseIsoChars s.data

/-- Upper bound of the model's timestamp domain: the first millisecond of year
10000 (beyond it `toISOString` switches to the expanded `±YYYYYY` year form). -/
def isoMaxMs : Nat := daysBetween 1970 8030 * 86400000

/-! ### JSON values

`JSON.parse` is a host primitive; its successful output is modelled as a
`Json` tree (JSON numbers are modelled as integers, which covers every value
the exporter produces).  An unparsable input is modelled as the absence of a
tree (`Option Json = none`). -/

inductive Json where
  | null
  | bool (b : Bool)
  | num (n : Int)
  | str (s : String)
  | arr (elems : List Json)
  | obj (fields : List (String × Json))

/-- Property lookup on the field list of a JSON object (keys produced by
`JSON.parse` are unique, so first-match lookup is adequate). -/
def lookupField : List (String × Json) → String → Option Json
  | [], _ => none
  | (k, v) :: rest, key => if k == key then some v else lookupField rest key

/-- JavaScript property access `value[key]` (`none` models `undefined`). -/
def getField : Json → String → Option Json
  | Json.obj fs, key => lookupField fs key
  | _, _ => none

mutual

/-- The string a JSON value contributes inside `Array.prototype.join` (the
`toString` used when `BigInt` coerces an array to a primitive): `null` (and a
missing property's `undefined`) joins as the empty string, booleans and
numbers print, nested arrays join recursively, plain objects print as
`[object Object]`. -/
def jsJoinElem : Json → String
  | Json.null => ""
  | Json.bool b => if b then "true" else "false"
  | Json.num n => intToDecString n
  | Json.str s => s
  | Json.arr elems => jsJoinList elems
  | Json.obj _ => "[object Object]"

/-- `Array.prototype.join(',')` over parsed JSON elements. -/
def jsJoinList : List Json → String
  | [] => ""
  | [j] => jsJoinElem j
  | j :: rest => jsJoinElem j ++ "," ++ jsJoinList rest

end

/-- Model of `BigInt(x)` on a parsed JSON value (`none` models a thrown
`SyntaxError`/`TypeError`).  `null` — and `undefined`, a missing property,
passed in as `Json.null` — throws directly; booleans and (integral JSON)
numbers convert; strings go through `StringToBigInt`; arrays coerce via
`toPrimitive` to their comma-join (so `BigInt` of `[]` is `0n` and of
`["7"]` is `7n`) and plain objects to `[object Object]`, which
`StringToBigInt` rejects. -/
def jsBigInt : Json → Option Int
  | Json.str s => parseBigInt s
  | Json.num n => some n
  | Json.bool b => some (if b then 1 else 0)
  | Json.arr elems => parseBigInt (jsJoinList elems)
  | Json.obj _ => parseBigInt "[object Object]"
  | Json.null => none

/-! ### Errors of the service layer (src/lib/contract.ts)

The source throws `Error` objects whose distinguishing content is the message
string; each distinct throw site gets a constructor, and raw EIP-1193 provider
rejections (which propagate unwrapped) carry their `{code?, message?}` payload. -/

/-- Payload of an EIP-1193 provider rejection. -/
structure RpcErr where
  code : Option Int
  message : Option String
deriving DecidableEq

inductive SvcErr where
  /-- Thrown by `connect`/`waitForEthereum` outside a browser context. -/
  | notBrowser
  /-- `waitForEthereum` timeout: "MetaMask가 감지되지 않았습니다." -/
  | providerNotDetected
  /-- `pickMetaMask` returned null: "MetaMask가 설치되지 않았거나 활성화되지 않았습니다." -/
  | metaMaskMissing
  /-- A provider `request` rejection propagating unchanged. -/
  | rpc (e : RpcErr)
  /-- "컨트랙트 메소드 누락: …" from the ABI validation loop. -/
  | contractMethodMissing (missing : String)
  /-- `getContract` guard: "컨트랙트에 연결되지 않았습니다." -/
  | contractNotConnected
  /-- `getProvider` guard: "프로바이더에 연결되지 않았습니다." -/
  | providerNotConnected
  /-- `getSigner` guard: "지갑에 연결되지 않았습니다." -/
  | signerNotConnected
  /-- "리셋 권한이 없습니다. 컨트랙트 소유자만 리셋할 수 있습니다." -/
  | unauthorizedReset
  /-- The `TypeError` raised when a method absent from the ABI is invoked on
  the ethers contract proxy. -/
  | methodUndefined (missing : String)
deriving DecidableEq

/-- The user-visible message of a service error (used by the component's
`err instanceof Error ? err.message : fallback` pattern; a raw provider
rejection without a message falls back to the connect-failure text). -/
def svcErrMsg : SvcErr → String
  | .notBrowser => "해당 함수는 브라우저에서만 실행이 가능합니다."
  | .providerNotDetected => "MetaMask가 감지되지 않았습니다."
  | .metaMaskMissing => "MetaMask가 설치되지 않았거나 활성화되지 않았습니다."
  | .rpc e => e.message.getD "지갑 연결에 실패했습니다."
  | .contractMethodMissing missing =>
      "컨트랙트 메소드 누락: " ++ missing ++ ". 배포 주소/ABI를 확인하세요."
  | .contractNotConnected => "컨트랙트에 연결되지 않았습니다."
  | .providerNotConnected => "프로바이더에 연결되지 않았습니다."
  | .signerNotConnected => "지갑에 연결되지 않았습니다."
  | .unauthorizedReset => "리셋 권한이 없습니다. 컨트랙트 소유자만 리셋할 수 있습니다."
  | .methodUndefined missing => missing ++ " is not a function"

/-! ### Provider environment -/

/-- An EIP-1193 injected provider as seen by `pickMetaMask`: the MetaMask flag
and the optional aggregation list of co-installed providers. -/
inductive Prov where
  | mk (isMM : Bool) (providers : Option (List Prov))

/-- The `isMetaMask` flag. -/
def Prov.isMM : Prov → Bool
  | .mk b _ => b

/-- The optional `providers` aggregation list. -/
def Prov.provList : Prov → Option (List Prov)
  | .mk _ l => l

/-- The provider requests `ensureSepoliaNetwork` can issue, in order. -/
inductive Req where
  | chainIdReq
  | switchChain
  | addChain
deriving DecidableEq, BEq

/-- Occurrences of a request kind in a request log. -/
def countReq (r : Req) : List Req → Nat
  | [] => 0
  | x :: xs => (if x == r then 1 else 0) + countReq r xs

/-- One resolved behaviour of the host environment and chain for a run of the
service code: presence of a browser window, the injected provider, the
responses of every provider request, the contract ABI and the on-chain data.
All reads that the claims exercise resolve to the environment's values; a
`RpcErr`-valued field is a request the provider may reject. -/
structure Env where
  /-- `typeof window !== 'undefined'`. -/
  windowPresent : Bool
  /-- `window.ethereum` at call time. -/
  injected : Option Prov
  /-- A provider delivered by the one-shot `ethereum#initialized` event within
  the 1500 ms window; `none` means the wait times out. -/
  lateInjected : Option Prov
  /-- Response to the `eth_chainId` request. -/
  chainIdHex : String
  /-- Outcome of the first `wallet_switchEthereumChain` request. -/
  switchFirst : Except RpcErr Unit
  /-- Outcome of the `wallet_addEthereumChain` request. -/
  addChainRes : Except RpcErr Unit
  /-- Outcome of the retried `wallet_switchEthereumChain` request. -/
  switchRetry : Except RpcErr Unit
  /-- Outcome of the `eth_requestAccounts` request. -/
  accountsRes : Except RpcErr Unit
  /-- The method names exposed by the contract ABI (`Counter.json`). -/
  abiMethods : List String
  /-- Value returned by the contract's `getCounter()`. -/
  counterValue : Int
  /-- Address returned by the contract's `owner()`. -/
  ownerAddr : String
  /-- Address returned by `signer.getAddress()`. -/
  signerAddress : String
  /-- `network.name` from `provider.getNetwork()`. -/
  networkName : String
  /-- `network.chainId` from `provider.getNetwork()`. -/
  networkChainId : Int
  /-- `feeData.gasPrice` (`none` models a null fee quote). -/
  feeGasPrice : Option Int
  /-- Confirmed transaction hash or rejection of `incrementCounter()`. -/
  incTx : Except RpcErr String
  /-- Confirmed transaction hash or rejection of `decrementCounter()`. -/
  decTx : Except RpcErr String
  /-- Confirmed transaction hash or rejection of `resetCounter()`. -/
  resetTx : Except RpcErr String

/-! ### Service layer (class CounterContractService) -/

/-- A bound ethers contract handle: the fixed address plus the set of method
names resolvable through the ABI proxy. -/
structure ContractHandle where
  methods : List String
deriving DecidableEq

/-- The private fields of `CounterContractService` (all initialised to null). -/
structure ServiceState where
  contract : Option ContractHandle
  provider : Option Unit
  signer : Option Unit
deriving DecidableEq

/-- The freshly constructed service singleton. -/
def initialService : ServiceState := { contract := none, provider := none, signer := none }

/-- `isConnected()`: `this._contract !== null`. -/
def isConnectedSvc (svc : ServiceState) : Bool := svc.contract.isSome

/-- Lower-casing of an address string (model of `String.prototype.toLowerCase`
on the ASCII hex addresses involved). -/
def strLower (s : String) : String := String.mk (s.data.map Char.toLower)

/-- The fixed Sepolia chain id constant. -/
def sepoliaChainIdHex : String := "0xaa36a7"

/-- Substring occurrence test (model of `String.prototype.includes`). -/
def startsWithChars : List Char → List Char → Bool
  | [], _ => true
  | _ :: _, [] => false
  | p :: ps, c :: cs => p == c && startsWithChars ps cs

/-- Whether `pat` occurs contiguously in `s`. -/
def containsSub (pat : List Char) : List Char → Bool
  | [] => pat.isEmpty
  | c :: rest => startsWithChars pat (c :: rest) || containsSub pat rest

/-- The unknown-chain test of `ensureSepoliaNetwork`'s catch block:
`err?.code === 4902 || (err?.message ?? '').includes('Unrecognized chain ID')`. -/
def isUnknownChainErr (e : RpcErr) : Bool :=
  e.code == some 4902 || containsSub "Unrecognized chain ID".data (e.message.getD "").data

/-- `waitForEthereum`: the existing provider, else the one delivered by the
one-shot `ethereum#initialized` listener within 1500 ms, else a timeout
rejection.  (The event firing with `window.ethereum` still undefined rejects
with the same message as the timeout and is merged with it.) -/
def waitForEthereum (env : Env) : Except SvcErr Prov :=
  if env.windowPresent = false then .error .notBrowser
  else
    match env.injected with
    | some p => .ok p
    | none =>
      match env.lateInjected with
      | some p => .ok p
      | none => .error .providerNotDetected

/-- `pickMetaMask`: in a multi-wallet aggregation list pick the entry flagged
`isMetaMask`, otherwise accept the injected provider only if it is itself
flagged. -/
def pickMetaMask : Option Prov → Option Prov
  | none => none
  | some inj =>
    match inj.provList with
    | some (p :: ps) => List.find? (fun q => q.isMM) (p :: ps)
    | _ => if inj.isMM then some inj else none

/-- `ensureSepoliaNetwork`, returning the outcome together with the ordered
log of provider requests issued (used to count registrations and retries). -/
def ensureSepoliaNetwork (env : Env) : Except SvcErr Unit × List Req :=
  if strLower env.chainIdHex == sepoliaChainIdHex then
    (.ok (), [Req.chainIdReq])
  else
    match env.switchFirst with
    | .ok () => (.ok (), [Req.chainIdReq, Req.switchChain])
    | .error e =>
      if isUnknownChainErr e then
        match env.addChainRes with
        | .error e2 => (.error (.rpc e2), [Req.chainIdReq, Req.switchChain, Req.addChain])
        | .ok () =>
          match env.switchRetry with
          | .ok () =>
              (.ok (), [Req.chainIdReq, Req.switchChain, Req.addChain, Req.switchChain])
          | .error e3 =>
              (.error (.rpc e3), [Req.chainIdReq, Req.switchChain, Req.addChain, Req.switchChain])
      else (.error (.rpc e), [Req.chainIdReq, Req.switchChain])

/-- The required contract surface checked by `connect`'s validation loop. -/
def requiredMethods : List String :=
  ["getCounter", "incrementCounter", "decrementCounter", "resetCounter", "owner"]

/-- `connect()`.  Note the source order: `_provider`, `_signer` and
`_contract` are assigned *before* the required-method validation loop runs, so
a `contractMethodMissing` failure leaves the bound fields in place. -/
def connect (env : Env) (svc : ServiceState) : Except SvcErr Unit × ServiceState :=
  if env.windowPresent = false then (.error .notBrowser, svc)
  else
    match waitForEthereum env with
    | .error e => (.error e, svc)
    | .ok injected =>
      match pickMetaMask (some injected) with
      | none => (.error .metaMaskMissing, svc)
      | some _ =>
        match (ensureSepoliaNetwork env).1 with
        | .error e => (.error e, svc)
        | .ok () =>
          match env.accountsRes with
          | .error e => (.error (.rpc e), svc)
          | .ok () =>
            let svc1 : ServiceState :=
              { contract := some { methods := env.abiMethods },
                provider := some (), signer := some () }
            match requiredMethods.find? (fun n => !(env.abiMethods.contains n)) with
            | some missing => (.error (.contractMethodMissing missing), svc1)
            | none => (.ok (), svc1)

/-- Lift a provider/transaction rejection into the service error type (such
rejections propagate unchanged through the service methods). -/
def mapTx : Except RpcErr String → Except SvcErr String
  | .ok h => .ok h
  | .error e => .error (.rpc e)

/-- `getCounter()`: guarded by `getContract`; invoking a method absent from
the ABI proxy raises a `TypeError`. -/
def getCounter (env : Env) (svc : ServiceState) : Except SvcErr Int :=
  match svc.contract with
  | none => .error .contractNotConnected
  | some c =>
    if c.methods.contains "getCounter" then .ok env.counterValue
    else .error (.methodUndefined "getCounter")

/-- `getOwner()`. -/
def getOwner (env : Env) (svc : ServiceState) : Except SvcErr String :=
  match svc.contract with
  | none => .error .contractNotConnected
  | some c =>
    if c.methods.contains "owner" then .ok env.ownerAddr
    else .error (.methodUndefined "owner")

/-- `getWalletAddress()`: guarded by `getSigner`. -/
def getWalletAddress (env : Env) (svc : ServiceState) : Except SvcErr String :=
  match svc.signer with
  | none => .error .signerNotConnected
  | some _ => .ok env.signerAddress

/-- `getNetworkInfo()`: guarded by `getProvider`. -/
def getNetworkInfo (env : Env) (svc : ServiceState) : Except SvcErr (String × Int) :=
  match svc.provider with
  | none => .error .providerNotConnected
  | some _ => .ok (env.networkName, env.networkChainId)

/-- Digits of the fractional gwei part, trailing zeros trimmed. -/
def gweiFracDigits (fp : Nat) : List Nat :=
  (List.dropWhile (fun d => d == 0)
    [fp % 10, fp / 10 % 10, fp / 100 % 10, fp / 1000 % 10, fp / 10000 % 10,
     fp / 100000 % 10, fp / 1000000 % 10, fp / 10000000 % 10, fp / 100000000 % 10]).reverse

/-- Model of `ethers.formatUnits(value, 'gwei')`: decimal value / 10⁹ with at
least one fractional digit. -/
def formatUnitsGwei (g : Int) : String :=
  let n := g.natAbs
  let frac := gweiFracDigits (n % 1000000000)
  (if g < 0 then "-" else "") ++ natToDecString (n / 1000000000) ++ "." ++
    (if frac.isEmpty then "0" else String.mk (frac.map digitChar))

/-- `getGasPrice()`: `'0'` when the provider reports no (or zero, `0n` being
falsy) gas price. -/
def getGasPrice (env : Env) (svc : ServiceState) : Except SvcErr String :=
  match svc.provider with
  | none => .error .providerNotConnected
  | some _ =>
    .ok (match env.feeGasPrice with
      | some g => if g != 0 then formatUnitsGwei g else "0"
      | none => "0")

/-- `incrementCounter()`: submit, await confirmation, return the hash. -/
def incrementCounter (env : Env) (svc : ServiceState) : Except SvcErr String :=
  match svc.contract with
  | none => .error .contractNotConnected
  | some c =>
    if c.methods.contains "incrementCounter" then mapTx env.incTx
    else .error (.methodUndefined "incrementCounter")

/-- `decrementCounter()`. -/
def decrementCounter (env : Env) (svc : ServiceState) : Except SvcErr String :=
  match svc.contract with
  | none => .error .contractNotConnected
  | some c =>
    if c.methods.contains "decrementCounter" then mapTx env.decTx
    else .error (.methodUndefined "decrementCounter")

/-- `resetCounter()`: re-read owner and signer address, compare lower-cased,
fail with the unauthorized error before submitting anything when they differ.
The second component records whether the reset transaction was submitted. -/
def resetCounter (env : Env) (svc : ServiceState) : Except SvcErr String × Bool :=
  match svc.contract with
  | none => (.error .contractNotConnected, false)
  | some c =>
    if c.methods.contains "owner" then
      match svc.signer with
      | none => (.error .signerNotConnected, false)
      | some _ =>
        if strLower env.ownerAddr != strLower env.signerAddress then
          (.error .unauthorizedReset, false)
        else if c.methods.contains "resetCounter" then (mapTx env.resetTx, true)
        else (.error (.methodUndefined "resetCounter"), false)
    else (.error (.methodUndefined "owner"), false)

/-! ### Component layer (src/components/CounterApp.tsx)

The React state of `CounterApp` is modelled as a record; each handler becomes
a state transformer.  Presentation-only state (`isDarkMode`, `showHistory`)
is outside the embedding's scope. -/

/-- One ledger entry (the element type of the `counterHistory` state).
`action` is kept as the raw string the source stores (its TS type is the union
`'increment' | 'decrement' | 'reset' | 'initial'`, unchecked at runtime). -/
structure HistoryEntry where
  value : Int
  action : String
  timestamp : Nat
  txHash : Option String
deriving DecidableEq

/-- The `useState` cells of `CounterApp`. -/
structure AppState where
  counter : Int
  isConnected : Bool
  isLoading : Bool
  error : Option String
  successMessage : Option String
  owner : String
  walletAddress : String
  isOwner : Bool
  transactionHash : Option String
  networkInfo : Option (String × Int)
  gasPrice : Option String
  counterAnimation : Option String
  achievement : Option String
  counterHistory : List HistoryEntry
  goalValue : Option Int
deriving DecidableEq

/-- The initial values of all `useState` cells. -/
def initialAppState : AppState :=
  { counter := 0, isConnected := false, isLoading := false, error := none,
    successMessage := none, owner := "", walletAddress := "", isOwner := false,
    transactionHash := none, networkInfo := none, gasPrice := none,
    counterAnimation := none, achievement := none, counterHistory := [],
    goalValue := none }

/-- `clearMessages()`. -/
def clearMessages (st : AppState) : AppState :=
  { st with error := none, successMessage := none, transactionHash := none }

/-- `showSuccess(message, txHash?)`: the transaction hash is only stored when
provided and truthy.  The 5-second self-clear timer is not modelled. -/
def showSuccessApply (message : String) (tx : Option String) (st : AppState) : AppState :=
  { st with
      successMessage := some message,
      transactionHash :=
        (match tx with
         | some t => if t.isEmpty then st.transactionHash else some t
         | none => st.transactionHash) }

/-- `addToHistory(value, action, txHash?)`. -/
def addToHistory (value : Int) (action : String) (now : Nat) (txHash : Option String)
    (st : AppState) : AppState :=
  { st with counterHistory :=
      st.counterHistory ++ [{ value := value, action := action, timestamp := now,
                              txHash := txHash }] }

/-- The success-notification suffix of `executeCounterAction`. -/
def actionOkSuffix : String := "이 성공적으로 완료되었습니다!"

/-- The achievement notification text for a goal value. -/
def achievementMsg (g : Int) : String :=
  "목표 달성! " ++ intToDecString g ++ "에 도달했습니다!"

/-- `executeCounterAction(action, actionName, animationType)`.  The source
receives the mutating call as a thunk; its resolved outcome and the outcome of
the follow-up `getCounter()` re-read are the two `Except` inputs here (an
`error` is a rejection caught by the handler's `catch`).  Note the JS goal
test `goalValue && after >= goalValue`: a goal of `0n` is falsy and skips the
achievement branch.  The `finally` block clears `isLoading` on every path. -/
def executeCounterAction (actionRes : Except String String) (readRes : Except String Int)
    (actionName animationType : String) (now : Nat) (st : AppState) : AppState :=
  let st1 := { clearMessages st with isLoading := true }
  match actionRes with
  | .error msg => { st1 with error := some msg, isLoading := false }
  | .ok txHash =>
    match readRes with
    | .error msg => { st1 with error := some msg, isLoading := false }
    | .ok after =>
      let st2 :=
        addToHistory after animationType now (some txHash)
          { st1 with counter := after, counterAnimation := some animationType }
      let st3 :=
        match st2.goalValue with
        | some g => if g ≠ 0 ∧ g ≤ after then { st2 with achievement := some (achievementMsg g) }
                    else st2
        | none => st2
      let st4 := showSuccessApply (actionName ++ actionOkSuffix) (some txHash) st3
      { st4 with isLoading := false }

/-- The five reads `connectWallet` issues through `Promise.all` after a
successful `connect()` (the first rejection wins). -/
def loadAll (env : Env) (svc : ServiceState) :
    Except SvcErr (Int × String × String × (String × Int) × String) := do
  let cnt ← getCounter env svc
  let own ← getOwner env svc
  let addr ← getWalletAddress env svc
  let net ← getNetworkInfo env svc
  let gas ← getGasPrice env svc
  .ok (cnt, own, addr, net, gas)

/-- The success notification of `connectWallet`. -/
def walletConnectedMsg : String := "지갑이 성공적으로 연결되었습니다!"

/-- `connectWallet()`.  On a successful `connect()` the connected flag is set
before the reads; on success of the reads the ledger is *replaced* by a single
fresh `initial` entry (`setCounterHistory([...])` with no emptiness check). -/
def connectWallet (env : Env) (now : Nat) (ui : AppState) (svc : ServiceState) :
    AppState × ServiceState :=
  let ui1 := { clearMessages ui with isLoading := true }
  match connect env svc with
  | (.error e, svc1) => ({ ui1 with error := some (svcErrMsg e), isLoading := false }, svc1)
  | (.ok _, svc1) =>
    let ui2 := { ui1 with isConnected := true }
    match loadAll env svc1 with
    | .error e => ({ ui2 with error := some (svcErrMsg e), isLoading := false }, svc1)
    | .ok (cnt, own, addr, net, gas) =>
      let ui3 := showSuccessApply walletConnectedMsg none
        { ui2 with
            counter := cnt, owner := own, walletAddress := addr,
            networkInfo := some net, gasPrice := some gas,
            isOwner := strLower own == strLower addr,
            counterHistory := [{ value := cnt, action := "initial", timestamp := now,
                                 txHash := none }] }
      ({ ui3 with isLoading := false }, svc1)

/-- `disconnectWallet()`: resets the component state only — no call is made on
the service singleton, whose session fields keep their values. -/
def disconnectWallet (ui : AppState) (svc : ServiceState) : AppState × ServiceState :=
  ({ clearMessages ui with
       isConnected := false, owner := "", walletAddress := "",
       isOwner := false, counter := 0, networkInfo := none, gasPrice := none,
       counterHistory := [] }, svc)

/-- `handleKeyPress`: the keyboard boundary of the Action Executor.  Returns
the dispatched action kind (if any) and the updated state (the `Escape` branch
clears the transient messages). -/
def handleKeyPress (key : String) (st : AppState) : Option String × AppState :=
  if !st.isConnected || st.isLoading then (none, st)
  else if key == "+" || key == "=" then (some "increment", st)
  else if key == "-" then (some "decrement", st)
  else if key == "r" || key == "R" then
    (if st.isOwner then (some "reset", st) else (none, st))
  else if key == "Escape" then (none, { st with error := none, successMessage := none })
  else (none, st)

/-- The three action buttons. -/
inductive UiButton where
  | incrementBtn
  | decrementBtn
  | resetBtn
deriving DecidableEq

/-- The `disabled` attribute of each action button. -/
def buttonDisabled : UiButton → AppState → Bool
  | .incrementBtn, st => st.isLoading
  | .decrementBtn, st => st.isLoading
  | .resetBtn, st => st.isLoading || !st.isOwner

/-- A click on an action button dispatches its action unless disabled. -/
def buttonDispatch (b : UiButton) (st : AppState) : Option String :=
  if buttonDisabled b st then none
  else some (match b with
    | .incrementBtn => "increment"
    | .decrementBtn => "decrement"
    | .resetBtn => "reset")

/-- `setGoal()`: `prompt` result (`none` = cancelled); an empty input becomes
`'0'`; an unparsable input makes `BigInt` throw out of the handler before any
state change. -/
def setGoalModel (input : Option String) (st : AppState) : AppState :=
  match input with
  | none => st
  | some s =>
    match parseBigInt (if s == "" then "0" else s) with
    | some v =>
        showSuccessApply ("목표가 " ++ intToDecString v ++ "으로 설정되었습니다!") none
          { st with goalValue := some v }
    | none => st

/-- `clearGoal()`. -/
def clearGoalModel (st : AppState) : AppState :=
  showSuccessApply "목표가 해제되었습니다." none { st with goalValue := none }

/-- `isGoalReached()`: note the `goalValue !== null` check here, in contrast
with the truthiness test inside `executeCounterAction`. -/
def isGoalReached (st : AppState) : Bool :=
  match st.goalValue with
  | some g => if g ≤ st.counter then true else false
  | none => false

/-! ### Ledger export / import -/

/-- Serialisation of one ledger entry (`JSON.stringify` drops the `txHash`
property when it is `undefined`). -/
def exportEntryJson (h : HistoryEntry) : Json :=
  Json.obj
    ([("value", Json.str (intToDecString h.value)),
      ("action", Json.str h.action),
      ("timestamp", Json.str (toIso h.timestamp))] ++
      (match h.txHash with
       | some t => [("txHash", Json.str t)]
       | none => []))

/-- The JSON document produced by `exportHistory` (the file download plumbing
around it is presentation glue). -/
def exportHistoryJson (hist : List HistoryEntry) (now : Nat) : Json :=
  Json.obj [("history", Json.arr (hist.map exportEntryJson)),
            ("exportedAt", Json.str (toIso now))]

/-- String coercion of the raw `action` field (the source stores the field
unvalidated; a non-string value, never produced by the exporter, is collapsed
to `""`). -/
def jsFieldString (j : Json) (k : String) : String :=
  match getField j k with
  | some (Json.str s) => s
  | _ => ""

/-- `new Date(h.timestamp)` on the raw field: ISO strings parse to their
millisecond value; a numeric field is already milliseconds; anything else
yields an Invalid Date, collapsed to 0 here (never exercised by the claims). -/
def jsFieldDate (j : Json) (k : String) : Nat :=
  match getField j k with
  | some (Json.str s) => (parseIso s).getD 0
  | some (Json.num n) => n.toNat
  | _ => 0

/-- Conversion of one imported JSON entry, `none` when `BigInt(h.value)`
throws. -/
def importEntry (j : Json) : Option HistoryEntry :=
  match jsBigInt ((getField j "value").getD Json.null) with
  | none => none
  | some v =>
    some { value := v,
           action := jsFieldString j "action",
           timestamp := jsFieldDate j "timestamp",
           txHash := (match getField j "txHash" with
                      | some (Json.str t) => some t
                      | _ => none) }

/-- The `.map` over `data.history`: a throw from any entry aborts the whole
conversion before `setCounterHistory` runs. -/
def importEntries : List Json → Option (List HistoryEntry)
  | [] => some []
  | j :: rest =>
    match importEntry j, importEntries rest with
    | some e, some es => some (e :: es)
    | _, _ => none

/-- The import failure message (the `ImportMalformed` surface). -/
def importFailMsg : String := "히스토리 파일을 읽는데 실패했습니다."

/-- The import success message. -/
def importOkMsg : String := "히스토리가 성공적으로 가져왔습니다!"

/-- `importHistory` after the file has been read: `none` models text on which
`JSON.parse` throws.  When `data.history` is missing or not an array the
handler's `if` has no `else` — the try block completes with no state change at
all.  A `BigInt` throw inside the `.map` is caught and surfaces the failure
message, leaving the ledger untouched; on success the ledger is replaced by
exactly the imported entries. -/
def importHistoryModel (parsed : Option Json) (st : AppState) : AppState :=
  match parsed with
  | none => { st with error := some importFailMsg }
  | some data =>
    match getField data "history" with
    | some (Json.arr hs) =>
      match importEntries hs with
      | some newHist => showSuccessApply importOkMsg none { st with counterHistory := newHist }
      | none => { st with error := some importFailMsg }
    | _ => st

/-! ### Concrete fixtures used by the claim theorems and witnesses -/

/-- A fully healthy environment: browser present, MetaMask injected, already
on Sepolia, accounts granted, complete ABI, counter value 5, and an owner and
signer address that differ only in letter case. -/
def envOk : Env :=
  { windowPresent := true, injected := some (Prov.mk true none), lateInjected := none,
    chainIdHex := "0xaa36a7", switchFirst := .ok (), addChainRes := .ok (),
    switchRetry := .ok (), accountsRes := .ok (),
    abiMethods := ["getCounter", "incrementCounter", "decrementCounter", "resetCounter",
                   "owner"],
    counterValue := 5, ownerAddr := "0xABc", signerAddress := "0xabC",
    networkName := "sepolia", networkChainId := 11155111, feeGasPrice := some 2500000000,
    incTx := .ok "0xaaa", decTx := .ok "0xbbb", resetTx := .ok "0xccc" }

/-- `envOk` with an ABI that lacks the required `getCounter` method. -/
def envMissingMethod : Env :=
  { envOk with abiMethods := ["incrementCounter", "decrementCounter", "resetCounter",
                              "owner"] }

/-- `envOk` on a foreign chain whose switch fails with the unknown-chain code
4902 and whose registration request is then rejected by the user. -/
def envUnknownAddFail : Env :=
  { envOk with
      chainIdHex := "0x1",
      switchFirst := .error { code := some 4902, message := none },
      addChainRes := .error { code := some 4001,
                              message := some "User rejected the request." } }

/-- The service state after a successful `connect()` against `envOk`. -/
def svcConnected : ServiceState := (connect envOk initialService).2

/-- The component state after a successful `connectWallet()` against `envOk`. -/
def uiConnected : AppState := (connectWallet envOk 0 initialAppState initialService).1

/-- A connected component state with the goal set to 0 (a value `setGoal`
accepts and announces). -/
def stGoalZero : AppState :=
  { initialAppState with isConnected := true, goalValue := some 0 }

/-- A component state whose ledger already holds one entry. -/
def uiWithHistory : AppState :=
  { initialAppState with
      counterHistory := [{ value := 7, action := "increment", timestamp := 500,
                           txHash := none }] }

/-- A three-entry ledger exercising every serialised field shape. -/
def demoHist : List HistoryEntry :=
  [{ value := 5, action := "initial", timestamp := 0, txHash := none },
   { value := 6, action := "increment", timestamp := 1700000000123, txHash := some "0xaaa" },
   { value := 0, action := "reset", timestamp := 1700000001000, txHash := some "0xccc" }]

theorem charDigit_digitChar : ∀ d : Nat, d < 10 → charDigit? (digitChar d) = some d := by
  decide

theorem digitChar_not_plus : ∀ d : Nat, d < 10 → (digitChar d == '+') = false := by
  decide

theorem digitChar_not_minus : ∀ d : Nat, d < 10 → (digitChar d == '-') = false := by
  decide

theorem digitChar_not_space : ∀ d : Nat, d < 10 → isJsSpace (digitChar d) = false := by
  decide

theorem digitChar_not_zero : ∀ d : Nat, d < 10 → d ≠ 0 → (digitChar d == '0') = false := by
  decide

/-- Joint specification of the fuelled digit expansion: all digits are below
10, the decimal fold recovers the number, and the list is non-empty. -/
theorem natDigitsAux_spec : ∀ (fuel n : Nat), n ≤ fuel →
    (∀ d ∈ natDigitsAux fuel n, d < 10) ∧
    (natDigitsAux fuel n).foldl (fun a d => a * 10 + d) 0 = n ∧
    natDigitsAux fuel n ≠ [] := by
  intro fuel
  induction fuel with
  | zero =>
    intro n hn
    have h0 : n = 0 := Nat.le_zero.mp hn
    subst h0
    refine ⟨?_, rfl, by simp [natDigitsAux]⟩
    intro d hd
    simp [natDigitsAux] at hd
    omega
  | succ fuel ih =>
    intro n hn
    by_cases hlt : n < 10
    · refine ⟨?_, ?_, ?_⟩ <;> simp [natDigitsAux, hlt]
    · have hrec := ih (n / 10) (by omega)
      obtain ⟨hmem, hval, hne⟩ := hrec
      have heq : natDigitsAux (fuel + 1) n = natDigitsAux fuel (n / 10) ++ [n % 10] := by
        simp [natDigitsAux, hlt]
      refine ⟨?_, ?_, ?_⟩
      · intro d hd
        rw [heq] at hd
        rcases List.mem_append.mp hd with h | h
        · exact hmem d h
        · simp at h
          omega
      · rw [heq, List.foldl_append]
        simp [hval]
        omega
      · rw [heq]
        simp

theorem natDigits_lt10 (n : Nat) : ∀ d ∈ natDigits n, d < 10 :=
  (natDigitsAux_spec n n le_rfl).1

theorem natDigits_foldl (n : Nat) :
    (natDigits n).foldl (fun a d => a * 10 + d) 0 = n :=
  (natDigitsAux_spec n n le_rfl).2.1

theorem natDigits_ne_nil (n : Nat) : natDigits n ≠ [] :=
  (natDigitsAux_spec n n le_rfl).2.2

/-- A positive number's decimal expansion has no leading zero. -/
theorem natDigitsAux_head_ne_zero : ∀ (fuel n : Nat), n ≤ fuel → 0 < n →
    ∀ (d : Nat) (rest : List Nat), natDigitsAux fuel n = d :: rest → d ≠ 0 := by
  intro fuel
  induction fuel with
  | zero => intro n hn hpos; omega
  | succ fuel ih =>
    intro n hn hpos d rest heq
    by_cases hlt : n < 10
    · simp [natDigitsAux, hlt] at heq
      omega
    · simp only [natDigitsAux, if_neg hlt] at heq
      obtain ⟨d2, rest2, hcons⟩ :=
        List.exists_cons_of_ne_nil ((natDigitsAux_spec fuel (n / 10) (by omega)).2.2)
      have hd2 := ih (n / 10) (by omega) (by omega) d2 rest2 hcons
      rw [hcons, List.cons_append] at heq
      cases heq
      exact hd2

/-- Parsing a mapped digit list accumulates the decimal fold. -/
theorem parseDigitsAux_map (ds : List Nat) (h : ∀ d ∈ ds, d < 10) :
    ∀ acc, parseDigitsAux (ds.map digitChar) acc =
      some (ds.foldl (fun a d => a * 10 + d) acc) := by
  induction ds with
  | nil => intro acc; rfl
  | cons d rest ih =>
    intro acc
    have hd : d < 10 := h d (List.mem_cons_self d rest)
    have hrest : ∀ x ∈ rest, x < 10 := fun x hx => h x (List.mem_cons_of_mem d hx)
    simp only [List.map_cons, parseDigitsAux, charDigit_digitChar d hd]
    exact ih hrest (acc * 10 + d)

theorem parseDigits_natDigits (n : Nat) :
    parseDigits? ((natDigits n).map digitChar) = some n := by
  have h1 := parseDigitsAux_map (natDigits n) (natDigits_lt10 n) 0
  simp only [Nat.zero_mul, natDigits_foldl n] at h1
  obtain ⟨d, rest, hcons⟩ := List.exists_cons_of_ne_nil (natDigits_ne_nil n)
  rw [hcons] at h1 ⊢
  simp only [List.map_cons] at h1 ⊢
  simp only [parseDigits?]
  exact h1

theorem dropSpaces_of_no_space (l : List Char) (h : ∀ c ∈ l, isJsSpace c = false) :
    dropSpaces l = l := by
  cases l with
  | nil => rfl
  | cons c rest =>
    have := h c (List.mem_cons_self c rest)
    simp [dropSpaces, this]

theorem trimChars_of_no_space (l : List Char) (h : ∀ c ∈ l, isJsSpace c = false) :
    trimChars l = l := by
  unfold trimChars
  rw [dropSpaces_of_no_space l h]
  rw [dropSpaces_of_no_space l.reverse (by intro c hc; exact h c (List.mem_reverse.mp hc))]
  exact List.reverse_reverse l

theorem no_space_in_digits (n : Nat) :
    ∀ c ∈ (natDigits n).map digitChar, isJsSpace c = false := by
  intro c hc
  obtain ⟨d, hd, rfl⟩ := List.mem_map.mp hc
  exact digitChar_not_space d (natDigits_lt10 n d hd)

/-- `BigInt(string)` inverts `bigint.toString()`. -/
theorem parseBigInt_intToDecString (v : Int) :
    parseBigInt (intToDecString v) = some v := by
  by_cases hv : v < 0
  · unfold intToDecString parseBigInt
    rw [if_pos hv]
    show parseBigIntChars (trimChars ('-' :: (natDigits v.natAbs).map digitChar)) = some v
    rw [trimChars_of_no_space _ (by
      intro c hc
      rcases List.mem_cons.mp hc with h | h
      · subst h; decide
      · exact no_space_in_digits v.natAbs c h)]
    show parseBigIntChars ('-' :: (natDigits v.natAbs).map digitChar) = some v
    simp only [parseBigIntChars]
    rw [if_neg (by decide), if_neg (by decide), if_pos (by decide)]
    rw [parseDigits_natDigits v.natAbs]
    show some (-Int.ofNat v.natAbs) = some v
    rw [Int.ofNat_eq_coe]
    congr 1
    omega
  · unfold intToDecString parseBigInt natToDecString
    rw [if_neg hv]
    show parseBigIntChars (trimChars ((natDigits v.natAbs).map digitChar)) = some v
    rw [trimChars_of_no_space _ (no_space_in_digits v.natAbs)]
    by_cases hz : v.natAbs = 0
    · have hv0 : v = 0 := by omega
      rw [hz, hv0]
      rfl
    · obtain ⟨d, rest, hcons⟩ := List.exists_cons_of_ne_nil (natDigits_ne_nil v.natAbs)
      have hd : d < 10 :=
        natDigits_lt10 v.natAbs d (by rw [hcons]; exact List.mem_cons_self d rest)
      have hdz : d ≠ 0 :=
        natDigitsAux_head_ne_zero v.natAbs v.natAbs le_rfl (by omega) d rest hcons
      rw [hcons]
      simp only [List.map_cons, parseBigIntChars]
      rw [if_neg (by rw [digitChar_not_zero d hd hdz]; simp),
          if_neg (by rw [digitChar_not_plus d hd]; simp),
          if_neg (by rw [digitChar_not_minus d hd]; simp)]
      have h2 := parseDigits_natDigits v.natAbs
      rw [hcons] at h2
      simp only [List.map_cons] at h2
      rw [h2]
      show some (Int.ofNat v.natAbs) = some v
      rw [Int.ofNat_eq_coe]
      congr 1
      omega

/-! ## Lemmas: calendar and ISO-8601 round trip -/

theorem daysInYear_ge (y : Nat) : 365 ≤ daysInYear y := by
  unfold daysInYear
  split <;> omega

/-- Correctness of the fuelled year split: the year offset and day-of-year
recombine to the input, the day-of-year is within the year, and the year does
not decrease. -/
theorem yearSplitAux_correct : ∀ (fuel y days : Nat), days < 365 * fuel + 365 →
    daysBetween y ((yearSplitAux fuel y days).1 - y) + (yearSplitAux fuel y days).2 = days ∧
    (yearSplitAux fuel y days).2 < daysInYear (yearSplitAux fuel y days).1 ∧
    y ≤ (yearSplitAux fuel y days).1 := by
  intro fuel
  induction fuel with
  | zero =>
    intro y days hlt
    have h365 := daysInYear_ge y
    refine ⟨?_, ?_, le_rfl⟩
    · show daysBetween y (y - y) + days = days
      rw [Nat.sub_self]
      simp [daysBetween]
    · show days < daysInYear y
      omega
  | succ fuel ih =>
    intro y days hlt
    by_cases hc : days < daysInYear y
    · have heq : yearSplitAux (fuel + 1) y days = (y, days) := by
        simp [yearSplitAux, hc]
      rw [heq]
      refine ⟨?_, hc, le_rfl⟩
      rw [Nat.sub_self]
      simp [daysBetween]
    · have h365 := daysInYear_ge y
      have heq : yearSplitAux (fuel + 1) y days =
          yearSplitAux fuel (y + 1) (days - daysInYear y) := by
        simp [yearSplitAux, hc]
      have hrec := ih (y + 1) (days - daysInYear y) (by omega)
      rw [heq]
      obtain ⟨ha, hb, hy⟩ := hrec
      refine ⟨?_, hb, by omega⟩
      have hsub : (yearSplitAux fuel (y + 1) (days - daysInYear y)).1 - y =
          ((yearSplitAux fuel (y + 1) (days - daysInYear y)).1 - (y + 1)) + 1 := by
        omega
      rw [hsub]
      show daysInYear y +
        daysBetween (y + 1) ((yearSplitAux fuel (y + 1) (days - daysInYear y)).1 - (y + 1)) +
        (yearSplitAux fuel (y + 1) (days - daysInYear y)).2 = days
      omega

/-- `yearSplit y days` specialisation of `yearSplitAux_correct`. -/
theorem yearSplit_correct (y days : Nat) :
    daysBetween y ((yearSplit y days).1 - y) + (yearSplit y days).2 = days ∧
    (yearSplit y days).2 < daysInYear (yearSplit y days).1 ∧
    y ≤ (yearSplit y days).1 :=
  yearSplitAux_correct (days + 1) y days (by omega)

theorem daysBetween_mono (y : Nat) : ∀ k j : Nat, daysBetween y k ≤ daysBetween y (k + j) := by
  intro k
  induction k generalizing y with
  | zero => intro j; exact Nat.zero_le _
  | succ k ih =>
    intro j
    have h : (k + 1) + j = (k + j) + 1 := by omega
    rw [h]
    show daysInYear y + daysBetween (y + 1) k ≤ daysInYear y + daysBetween (y + 1) (k + j)
    exact Nat.add_le_add_left (ih (y + 1) j) _

theorem isLeap_add400 (y : Nat) : isLeap (y + 400) = isLeap y := by
  unfold isLeap
  have h4 : (y + 400) % 4 = y % 4 := by omega
  have h100 : (y + 400) % 100 = y % 100 := by omega
  have h400 : (y + 400) % 400 = y % 400 := by omega
  rw [h4, h100, h400]

theorem daysInYear_add400 (y : Nat) : daysInYear (y + 400) = daysInYear y := by
  unfold daysInYear
  rw [isLeap_add400]

theorem daysBetween_shift400 : ∀ (k y : Nat), daysBetween (y + 400) k = daysBetween y k := by
  intro k
  induction k with
  | zero => intro y; rfl
  | succ k ih =>
    intro y
    show daysInYear (y + 400) + daysBetween (y + 400 + 1) k =
      daysInYear y + daysBetween (y + 1) k
    rw [daysInYear_add400]
    have h : y + 400 + 1 = (y + 1) + 400 := by omega
    rw [h, ih (y + 1)]

theorem daysBetween_shift400mul : ∀ (j k y : Nat), daysBetween (y + 400 * j) k = daysBetween y k := by
  intro j
  induction j with
  | zero => intro k y; rfl
  | succ j ih =>
    intro k y
    have h : y + 400 * (j + 1) = (y + 400 * j) + 400 := by omega
    rw [h, daysBetween_shift400, ih]

theorem daysBetween_split (y : Nat) : ∀ a b : Nat,
    daysBetween y (a + b) = daysBetween y a + daysBetween (y + a) b := by
  intro a
  induction a generalizing y with
  | zero => intro b; simp [daysBetween]
  | succ a ih =>
    intro b
    have h : (a + 1) + b = (a + b) + 1 := by omega
    rw [h]
    show daysInYear y + daysBetween (y + 1) (a + b) =
      daysInYear y + daysBetween (y + 1) a + daysBetween (y + (a + 1)) b
    have h2 : y + (a + 1) = (y + 1) + a := by omega
    rw [ih (y + 1), h2]
    omega

set_option maxRecDepth 4000 in
theorem daysBetween_1970_400 : daysBetween 1970 400 = 146097 := by decide

set_option maxRecDepth 4000 in
theorem daysBetween_1970_30 : daysBetween 1970 30 = 10957 := by decide

theorem daysBetween_mul400 (y : Nat) : ∀ j : Nat, daysBetween y (400 * j) = j * daysBetween y 400 := by
  intro j
  induction j with
  | zero =>
    show daysBetween y 0 = 0 * daysBetween y 400
    rw [Nat.zero_mul]
    rfl
  | succ j ih =>
    have h : 400 * (j + 1) = 400 + 400 * j := by omega
    rw [h, daysBetween_split, daysBetween_shift400, ih]
    ring

theorem daysBetween_1970_8030 : daysBetween 1970 8030 = 2932897 := by
  have h : (8030 : Nat) = 400 * 20 + 30 := by norm_num
  rw [h, daysBetween_split, daysBetween_mul400, daysBetween_1970_400,
      daysBetween_shift400mul 20 30 1970, daysBetween_1970_30]

theorem isoMaxMs_eq : isoMaxMs = 253402300800000 := by
  unfold isoMaxMs
  rw [daysBetween_1970_8030]

set_option maxRecDepth 4000 in
/-- Correctness of the month cascade over a whole year. -/
theorem monthSplit_correct : ∀ (l : Bool), ∀ doy, doy < (if l then 366 else 365) →
    1 ≤ (monthSplit l doy).1 ∧ (monthSplit l doy).1 ≤ 12 ∧
    (monthSplit l doy).2 < monthLen l (monthSplit l doy).1 ∧
    monthCumul l (monthSplit l doy).1 + (monthSplit l doy).2 = doy := by
  decide

theorem monthLen_le31 : ∀ (l : Bool), ∀ m, m < 13 → monthLen l m ≤ 31 := by
  decide

theorem twoDigits_pad2 (n : Nat) (h : n < 100) :
    twoDigits (digitChar (n / 10 % 10)) (digitChar (n % 10)) = some n := by
  unfold twoDigits
  rw [charDigit_digitChar _ (by omega), charDigit_digitChar _ (by omega)]
  show some (10 * (n / 10 % 10) + n % 10) = some n
  congr 1
  omega

theorem threeDigits_pad3 (n : Nat) (h : n < 1000) :
    threeDigits (digitChar (n / 100 % 10)) (digitChar (n / 10 % 10)) (digitChar (n % 10)) =
      some n := by
  unfold threeDigits
  rw [charDigit_digitChar _ (by omega), charDigit_digitChar _ (by omega),
      charDigit_digitChar _ (by omega)]
  show some (100 * (n / 100 % 10) + 10 * (n / 10 % 10) + n % 10) = some n
  congr 1
  omega

theorem fourDigits_pad4 (n : Nat) (h : n < 10000) :
    fourDigits (digitChar (n / 1000 % 10)) (digitChar (n / 100 % 10))
      (digitChar (n / 10 % 10)) (digitChar (n % 10)) = some n := by
  unfold fourDigits
  rw [charDigit_digitChar _ (by omega), charDigit_digitChar _ (by omega),
      charDigit_digitChar _ (by omega), charDigit_digitChar _ (by omega)]
  show some (1000 * (n / 1000 % 10) + 100 * (n / 100 % 10) + 10 * (n / 10 % 10) + n % 10) =
    some n
  congr 1
  omega

set_option maxRecDepth 8000 in
/-- The ISO-8601 round trip at millisecond precision, for every instant in the
model's 1970–9999 domain. -/
theorem parseIso_toIso (ms : Nat) (h : ms < isoMaxMs) : parseIso (toIso ms) = some ms := by
  unfold parseIso toIso
  show parseIsoChars (toIsoChars ms) = some ms
  have hrem : ms % 86400000 < 86400000 := Nat.mod_lt _ (by omega)
  have hyd := yearSplit_correct 1970 (ms / 86400000)
  obtain ⟨h1, h2, h3⟩ := hyd
  have hdayslt : ms / 86400000 < daysBetween 1970 8030 := by
    rw [daysBetween_1970_8030]
    have := isoMaxMs_eq
    omega
  have hYlt : (yearSplit 1970 (ms / 86400000)).1 < 10000 := by
    by_contra hge
    push_neg at hge
    obtain ⟨j, hj⟩ := Nat.exists_eq_add_of_le
      (show 8030 ≤ (yearSplit 1970 (ms / 86400000)).1 - 1970 by omega)
    have hmono := daysBetween_mono 1970 8030 j
    rw [← hj] at hmono
    omega
  have hmd := monthSplit_correct (isLeap (yearSplit 1970 (ms / 86400000)).1)
    (yearSplit 1970 (ms / 86400000)).2
    (by
      have := h2
      unfold daysInYear at this
      exact this)
  obtain ⟨hm1, hm2, hm3, hm4⟩ := hmd
  -- abbreviations
  set Y := (yearSplit 1970 (ms / 86400000)).1 with hY
  set doy := (yearSplit 1970 (ms / 86400000)).2 with hdoy
  set mo := (monthSplit (isLeap Y) doy).1 with hmo
  set d0 := (monthSplit (isLeap Y) doy).2 with hd0
  have hmlen : monthLen (isLeap Y) mo ≤ 31 := monthLen_le31 (isLeap Y) mo (by omega)
  unfold toIsoChars
  simp only [← hY, ← hdoy, ← hmo, ← hd0, pad4, pad2, pad3, List.cons_append,
    List.nil_append, List.append_assoc]
  simp only [parseIsoChars]
  rw [if_pos (by simp)]
  rw [fourDigits_pad4 Y hYlt, twoDigits_pad2 mo (by omega),
      twoDigits_pad2 (d0 + 1) (by omega),
      twoDigits_pad2 (ms % 86400000 / 3600000) (by omega),
      twoDigits_pad2 (ms % 86400000 % 3600000 / 60000) (by omega),
      twoDigits_pad2 (ms % 86400000 % 60000 / 1000) (by omega),
      threeDigits_pad3 (ms % 86400000 % 1000) (by omega)]
  dsimp only
  rw [if_pos (by
    refine ⟨h3, hm1, hm2, by omega, by omega, by omega, by omega, by omega⟩)]
  simp only [Option.some.injEq]
  omega

/-! ## Lemmas: ledger export / import -/

/-- Importing one exported entry recovers it exactly (for timestamps in the
model's domain). -/
theorem importEntry_exportEntry (e : HistoryEntry) (hts : e.timestamp < isoMaxMs) :
    importEntry (exportEntryJson e) = some e := by
  cases e with
  | mk v a ts tx =>
    simp only [HistoryEntry.mk.injEq] at hts
    cases tx with
    | none =>
      simp [exportEntryJson, importEntry, getField, lookupField, jsBigInt,
        jsFieldString, jsFieldDate, parseBigInt_intToDecString v, parseIso_toIso ts hts]
    | some t =>
      simp [exportEntryJson, importEntry, getField, lookupField, jsBigInt,
        jsFieldString, jsFieldDate, parseBigInt_intToDecString v, parseIso_toIso ts hts]

/-- Importing an exported ledger recovers every entry. -/
theorem importEntries_export (hist : List HistoryEntry)
    (hts : ∀ e ∈ hist, e.timestamp < isoMaxMs) :
    importEntries (hist.map exportEntryJson) = some hist := by
  induction hist with
  | nil => rfl
  | cons e rest ih =>
    have he : e.timestamp < isoMaxMs := hts e (List.mem_cons_self e rest)
    have hrest : ∀ x ∈ rest, x.timestamp < isoMaxMs :=
      fun x hx => hts x (List.mem_cons_of_mem e hx)
    simp only [List.map_cons, importEntries, importEntry_exportEntry e he, ih hrest]

/-! ## Lemmas: connect -/

/-- A successful `connect()` has bound the ABI's contract handle, provider and
signer, and the validation loop found every required method present. -/
theorem connect_ok (env : Env) (svc : ServiceState) (res : Except SvcErr Unit)
    (svc2 : ServiceState) (hconn : connect env svc = (res, svc2)) (hok : res = .ok ()) :
    svc2 = { contract := some { methods := env.abiMethods }, provider := some (),
             signer := some () } ∧
    ∀ n ∈ requiredMethods, env.abiMethods.contains n = true := by
  subst hok
  unfold connect at hconn
  dsimp only at hconn
  split at hconn
  · simp at hconn
  · split at hconn
    · simp at hconn
    · split at hconn
      · simp at hconn
      · split at hconn
        · simp at hconn
        · split at hconn
          · simp at hconn
          · split at hconn
            · simp at hconn
            · rename_i hfind
              simp only [Prod.mk.injEq] at hconn
              refine ⟨hconn.2.symm, ?_⟩
              intro n hn
              have h2 := List.find?_eq_none.mp hfind n hn
              simp at h2
              simpa using h2

/-! ## Claim theorems -/

/-- C1: the spec says session binding is all-or-nothing — when a required
method is missing, `connect()` must retain no Session, `isConnected()` must be
false and `readCounter()` must fail with NotConnected.  The code violates
this: the contract, provider and signer fields are assigned before the
validation loop, so after the `contractMethodMissing` failure the partially
bound session is retained, `isConnected()` answers `true`, and `getCounter()`
does not fail with the NotConnected guard (it trips over the missing ABI
method instead).  This theorem evaluates the code at the failing input. -/
theorem connect_missing_method_retains_session :
    (connect envMissingMethod initialService).1 =
      .error (.contractMethodMissing "getCounter") ∧
    isConnectedSvc (connect envMissingMethod initialService).2 = true ∧
    getCounter envMissingMethod (connect envMissingMethod initialService).2 =
      .error (.methodUndefined "getCounter") ∧
    getCounter envMissingMethod (connect envMissingMethod initialService).2 ≠
      .error .contractNotConnected := by
  refine ⟨rfl, rfl, rfl, ?_⟩
  intro hc
  rw [show getCounter envMissingMethod (connect envMissingMethod initialService).2 =
    .error (.methodUndefined "getCounter") from rfl] at hc
  simp at hc

/-- C2 (counterexample): after a successful `connect()`, `disconnectWallet()`
leaves the service singleton untouched, so `readCounter()` afterwards still
succeeds rather than failing with NotConnected, refuting the claim that every
Session Manager operation fails with NotConnected after disconnect. -/
theorem disconnect_retains_session_cex :
    (connect envOk initialService).1 = .ok () ∧
    (disconnectWallet uiConnected svcConnected).2 = svcConnected ∧
    getCounter envOk (disconnectWallet uiConnected svcConnected).2 = .ok 5 ∧
    getCounter envOk (disconnectWallet uiConnected svcConnected).2 ≠
      .error .contractNotConnected := by
  refine ⟨rfl, rfl, rfl, ?_⟩
  intro hc
  rw [show getCounter envOk (disconnectWallet uiConnected svcConnected).2 = .ok 5
    from rfl] at hc
  simp at hc

/-- C2 (amended): `disconnect()` resets only the presentation state (the
connection flag, cached values and the ledger) and performs no Session Manager
call — the session is retained; the NotConnected failures of the eight service
operations occur exactly on the pristine service state whose fields were never
bound by a successful `connect()`. -/
theorem disconnect_resets_ui_only (ui : AppState) (svc : ServiceState) :
    (disconnectWallet ui svc).2 = svc ∧
    (disconnectWallet ui svc).1.isConnected = false ∧
    (disconnectWallet ui svc).1.counterHistory = [] ∧
    (∀ env : Env, getCounter env initialService = .error .contractNotConnected) ∧
    (∀ env : Env, getOwner env initialService = .error .contractNotConnected) ∧
    (∀ env : Env, getWalletAddress env initialService = .error .signerNotConnected) ∧
    (∀ env : Env, getNetworkInfo env initialService = .error .providerNotConnected) ∧
    (∀ env : Env, getGasPrice env initialService = .error .providerNotConnected) ∧
    (∀ env : Env, incrementCounter env initialService = .error .contractNotConnected) ∧
    (∀ env : Env, decrementCounter env initialService = .error .contractNotConnected) ∧
    (∀ env : Env, resetCounter env initialService = (.error .contractNotConnected, false)) :=
  ⟨rfl, rfl, rfl, fun _ => rfl, fun _ => rfl, fun _ => rfl, fun _ => rfl, fun _ => rfl,
   fun _ => rfl, fun _ => rfl, fun _ => rfl⟩

/-- C3: the spec promises an achievement notification whenever a goal is set
and the freshly read value has reached it, for every goal value including 0.
The code's truthiness test `goalValue && after >= goalValue` treats the bigint
goal `0n` as falsy, so with the goal set to 0 and the counter re-read as 5 no
achievement is surfaced — while the identical run with goal 3 does surface
one.  This theorem evaluates the code at the failing input. -/
theorem goal_zero_no_achievement :
    stGoalZero.goalValue = some 0 ∧
    (0 : Int) ≤ 5 ∧
    (executeCounterAction (.ok "0xaaa") (.ok 5) "카운터 증가" "increment" 1000
        stGoalZero).achievement = none ∧
    (executeCounterAction (.ok "0xaaa") (.ok 5) "카운터 증가" "increment" 1000
        { stGoalZero with goalValue := some 3 }).achievement =
      some (achievementMsg 3) := by
  refine ⟨rfl, by decide, ?_, ?_⟩ <;> decide

/-- C4 (counterexample): a successful `connectWallet()` run while the ledger
already holds an entry replaces the ledger with a single fresh `initial`
entry instead of leaving the existing entries in place. -/
theorem connect_nonempty_ledger_replaced_cex :
    uiWithHistory.counterHistory ≠ [] ∧
    (connectWallet envOk 1000 uiWithHistory initialService).1.counterHistory =
      [{ value := 5, action := "initial", timestamp := 1000, txHash := none }] ∧
    (connectWallet envOk 1000 uiWithHistory initialService).1.counterHistory ≠
      uiWithHistory.counterHistory := by
  refine ⟨by decide, rfl, by decide⟩

/-- C4 (amended): on every successful `connect()` the ledger is
unconditionally reset to exactly one `initial` entry holding the freshly read
counter value, regardless of the previous contents (the emptiness-guarded
seeding exists only in the separate `loadCounter` refresh path). -/
theorem connect_success_resets_ledger (env : Env) (now : Nat) (ui : AppState)
    (svc : ServiceState) (h : (connect env svc).1 = .ok ()) :
    (connectWallet env now ui svc).1.counterHistory =
      [{ value := env.counterValue, action := "initial", timestamp := now,
         txHash := none }] := by
  have hconn : connect env svc = (Except.ok (), (connect env svc).2) := by
    rw [← h]
  obtain ⟨hstate, hall⟩ := connect_ok env svc _ _ hconn rfl
  have hg : "getCounter" ∈ env.abiMethods := by
    simpa using hall _ (by simp [requiredMethods])
  have ho : "owner" ∈ env.abiMethods := by
    simpa using hall _ (by simp [requiredMethods])
  unfold connectWallet
  rw [hconn, hstate]
  unfold loadAll getCounter getOwner getWalletAddress getNetworkInfo getGasPrice
  simp [hg, ho, showSuccessApply, Bind.bind, Except.bind]

/-- C4 witness. -/
theorem connect_success_resets_ledger_witness :
    (connectWallet envOk 1000 uiWithHistory initialService).1.counterHistory =
      [{ value := 5, action := "initial", timestamp := 1000, txHash := none }] := by
  have h := connect_success_resets_ledger envOk 1000 uiWithHistory initialService rfl
  exact h

/-- C5: `resetCounter()` re-reads owner and signer address and compares them
lower-cased: on a (case-insensitive) mismatch it fails with the unauthorized
error and submits no transaction; when the addresses agree up to case it
proceeds to submit the reset transaction. -/
theorem reset_owner_check (env : Env) (svc : ServiceState) (c : ContractHandle)
    (hc : svc.contract = some c) (hs : svc.signer = some ())
    (ho : c.methods.contains "owner" = true)
    (hr : c.methods.contains "resetCounter" = true) :
    (strLower env.ownerAddr ≠ strLower env.signerAddress →
      resetCounter env svc = (.error .unauthorizedReset, false)) ∧
    (strLower env.ownerAddr = strLower env.signerAddress →
      resetCounter env svc = (mapTx env.resetTx, true)) := by
  have hom : "owner" ∈ c.methods := by simpa using ho
  have hrm : "resetCounter" ∈ c.methods := by simpa using hr
  unfold resetCounter
  rw [hc, hs]
  constructor
  · intro hne
    have hbne : (strLower env.ownerAddr != strLower env.signerAddress) = true := by
      simp [bne_iff_ne, hne]
    simp [hom, hbne]
  · intro heq
    have hbne : (strLower env.ownerAddr != strLower env.signerAddress) = false := by
      simp [heq]
    simp [hom, hbne, hrm]

/-- C5 witness: owner `0xABc` and signer `0xabC` agree up to case, so the
reset transaction is submitted; a genuinely different signer is rejected with
the unauthorized error and no submission. -/
theorem reset_owner_check_witness :
    resetCounter envOk svcConnected = (.ok "0xccc", true) ∧
    resetCounter { envOk with signerAddress := "0xdd" } svcConnected =
      (.error .unauthorizedReset, false) := by
  constructor
  · have h := (reset_owner_check envOk svcConnected
      { methods := envOk.abiMethods } rfl rfl rfl rfl).2 (by decide)
    rw [h]
    rfl
  · exact (reset_owner_check { envOk with signerAddress := "0xdd" } svcConnected
      { methods := envOk.abiMethods } rfl rfl rfl rfl).1 (by decide)

/-- C6: the Action Executor is single-flight: `executeCounterAction` clears
the busy flag on every exit path (action rejection, re-read rejection, and the
success path alike), and both trigger boundaries — the keyboard handler and
the action buttons — dispatch nothing while the executor is busy, so a new
action can start only from the idle state. -/
theorem executor_single_flight :
    (∀ (a : Except String String) (r : Except String Int) (nm ty : String) (now : Nat)
        (st : AppState), (executeCounterAction a r nm ty now st).isLoading = false) ∧
    (∀ (st : AppState) (k : String), st.isLoading = true → (handleKeyPress k st).1 = none) ∧
    (∀ (st : AppState) (b : UiButton), st.isLoading = true → buttonDispatch b st = none) := by
  refine ⟨?_, ?_, ?_⟩
  · intro a r nm ty now st
    cases a with
    | error m => rfl
    | ok t =>
      cases r with
      | error m => rfl
      | ok v => rfl
  · intro st k h
    unfold handleKeyPress
    rw [h]
    simp
  · intro st b h
    cases b <;> simp [buttonDispatch, buttonDisabled, h]

/-- C6 witness. -/
theorem executor_single_flight_witness :
    (executeCounterAction (.ok "0xaaa") (.ok 1) "x" "increment" 0
        initialAppState).isLoading = false ∧
    (handleKeyPress "+"
      { initialAppState with
          isConnected := true,
          isLoading := true }).1 = none ∧
    buttonDispatch UiButton.incrementBtn
      { initialAppState with isLoading := true } = none :=
  ⟨executor_single_flight.1 _ _ _ _ _ _, executor_single_flight.2.1 _ _ rfl,
   executor_single_flight.2.2 _ _ rfl⟩

/-- C7 (counterexample): in an execution whose first switch fails with the
unknown-chain code 4902 but whose registration request is itself rejected,
the enforcer issues the single registration and then aborts — the retried
switch is never issued, so the claim's "exactly one retried switch request in
every unknown-chain execution" fails (the log holds one switch, not two). -/
theorem network_unknown_chain_no_retry_cex :
    envUnknownAddFail.switchFirst = .error { code := some 4902, message := none } ∧
    isUnknownChainErr { code := some 4902, message := none } = true ∧
    (strLower envUnknownAddFail.chainIdHex == sepoliaChainIdHex) = false ∧
    countReq Req.addChain (ensureSepoliaNetwork envUnknownAddFail).2 = 1 ∧
    countReq Req.switchChain (ensureSepoliaNetwork envUnknownAddFail).2 = 1 ∧
    countReq Req.switchChain (ensureSepoliaNetwork envUnknownAddFail).2 ≠ 2 := by
  refine ⟨rfl, by decide, by decide, by decide, by decide, by decide⟩

/-- C7 (amended): every run of the Network Enforcer issues at most one
registration and at most two switch requests; when the first switch fails
with an unknown-chain error, exactly one registration is issued, followed by
exactly one retried switch when the registration succeeds (a rejected
registration aborts with its cause and no retry); any other switch failure
triggers no registration and no retry and propagates its cause. -/
theorem network_retry_bounds (env : Env) (res : Except SvcErr Unit) (log : List Req)
    (hrun : ensureSepoliaNetwork env = (res, log)) :
    countReq Req.addChain log ≤ 1 ∧
    countReq Req.switchChain log ≤ 2 ∧
    (∀ e : RpcErr, (strLower env.chainIdHex == sepoliaChainIdHex) = false →
      env.switchFirst = .error e → isUnknownChainErr e = true →
      countReq Req.addChain log = 1 ∧
      (env.addChainRes = .ok () → countReq Req.switchChain log = 2) ∧
      (∀ e2 : RpcErr, env.addChainRes = .error e2 →
        res = .error (.rpc e2) ∧ countReq Req.switchChain log = 1)) ∧
    (∀ e : RpcErr, (strLower env.chainIdHex == sepoliaChainIdHex) = false →
      env.switchFirst = .error e → isUnknownChainErr e = false →
      countReq Req.addChain log = 0 ∧ countReq Req.switchChain log = 1 ∧
      res = .error (.rpc e)) := by
  unfold ensureSepoliaNetwork at hrun
  split at hrun
  · rename_i hsep
    simp only [Prod.mk.injEq] at hrun
    obtain ⟨hres, hlog⟩ := hrun
    subst hres
    subst hlog
    refine ⟨by decide, by decide, ?_, ?_⟩ <;> (intro e h1 h2 h3; simp_all)
  · rename_i hsep
    split at hrun
    · rename_i u hsw
      simp only [Prod.mk.injEq] at hrun
      obtain ⟨hres, hlog⟩ := hrun
      subst hres
      subst hlog
      refine ⟨by decide, by decide, ?_, ?_⟩ <;> (intro e h1 h2 h3; simp_all)
    · rename_i e0 hsw
      split at hrun
      · rename_i hu
        split at hrun
        · rename_i e2 hadd
          simp only [Prod.mk.injEq] at hrun
          obtain ⟨hres, hlog⟩ := hrun
          subst hres
          subst hlog
          refine ⟨by decide, by decide, ?_, ?_⟩
          · intro e h1 h2 h3
            refine ⟨by decide, ?_, ?_⟩
            · intro hok
              rw [hok] at hadd
              cases hadd
            · intro e3 he3
              rw [he3] at hadd
              cases hadd
              exact ⟨rfl, by decide⟩
          · intro e h1 h2 h3
            rw [h2] at hsw
            cases hsw
            rw [h3] at hu
            cases hu
        · rename_i hadd
          split at hrun
          · rename_i u2 hretry
            simp only [Prod.mk.injEq] at hrun
            obtain ⟨hres, hlog⟩ := hrun
            subst hres
            subst hlog
            refine ⟨by decide, by decide, ?_, ?_⟩
            · intro e h1 h2 h3
              refine ⟨by decide, fun _ => by decide, ?_⟩
              intro e3 he3
              rw [he3] at hadd
              cases hadd
            · intro e h1 h2 h3
              rw [h2] at hsw
              cases hsw
              rw [h3] at hu
              cases hu
          · rename_i e3 hretry
            simp only [Prod.mk.injEq] at hrun
            obtain ⟨hres, hlog⟩ := hrun
            subst hres
            subst hlog
            refine ⟨by decide, by decide, ?_, ?_⟩
            · intro e h1 h2 h3
              refine ⟨by decide, fun _ => by decide, ?_⟩
              intro e4 he4
              rw [he4] at hadd
              cases hadd
            · intro e h1 h2 h3
              rw [h2] at hsw
              cases hsw
              rw [h3] at hu
              cases hu
      · rename_i hu
        simp only [Prod.mk.injEq] at hrun
        obtain ⟨hres, hlog⟩ := hrun
        subst hres
        subst hlog
        refine ⟨by decide, by decide, ?_, ?_⟩
        · intro e h1 h2 h3
          rw [h2] at hsw
          cases hsw
          exact absurd h3 (by simp_all)
        · intro e h1 h2 h3
          rw [h2] at hsw
          cases hsw
          exact ⟨by decide, by decide, rfl⟩

/-- C7 witness. -/
theorem network_retry_bounds_witness :
    countReq Req.addChain (ensureSepoliaNetwork envOk).2 ≤ 1 ∧
    countReq Req.switchChain (ensureSepoliaNetwork envOk).2 ≤ 2 :=
  ⟨(network_retry_bounds envOk _ _ rfl).1, (network_retry_bounds envOk _ _ rfl).2.1⟩

/-- C8: serialising a ledger (values as decimal strings, action kinds,
ISO-8601 timestamps, optional transaction ids) and re-importing the result
reproduces the ledger exactly — identical values, action kinds, transaction
ids, and timestamps at ISO-8601 (millisecond) precision — for every ledger
whose timestamps lie in the model's 1970–9999 domain. -/
theorem export_import_round_trip (hist : List HistoryEntry) (st : AppState) (now : Nat)
    (hts : ∀ e ∈ hist, e.timestamp < isoMaxMs) :
    (importHistoryModel (some (exportHistoryJson hist now)) st).counterHistory = hist := by
  have hfield : getField (exportHistoryJson hist now) "history" =
      some (Json.arr (hist.map exportEntryJson)) := rfl
  unfold importHistoryModel
  dsimp only
  rw [hfield]
  dsimp only
  rw [importEntries_export hist hts]
  rfl

/-- C8 witness. -/
theorem export_import_round_trip_witness :
    (importHistoryModel (some (exportHistoryJson demoHist 42))
        initialAppState).counterHistory = demoHist :=
  export_import_round_trip demoHist initialAppState 42
    (by simp only [isoMaxMs_eq]; decide)

/-- C10: a successful ledger import *replaces* the ledger with exactly the
imported entry sequence; pre-existing entries (the seeded initial entry
included) are discarded, not appended to or merged. -/
theorem import_replaces_ledger (st : AppState) (j : Json) (es : List Json)
    (hist : List HistoryEntry) (hf : getField j "history" = some (Json.arr es))
    (he : importEntries es = some hist) :
    (importHistoryModel (some j) st).counterHistory = hist := by
  unfold importHistoryModel
  dsimp only
  rw [hf]
  dsimp only
  rw [he]
  rfl

/-- C10 witness: importing over a non-empty ledger yields exactly the
imported entries. -/
theorem import_replaces_ledger_witness :
    (importHistoryModel (some (exportHistoryJson demoHist 0))
        uiWithHistory).counterHistory = demoHist ∧
    uiWithHistory.counterHistory ≠ [] :=
  ⟨import_replaces_ledger uiWithHistory _ _ demoHist rfl (by decide),
   by decide⟩

end CounterApp
